import Mathlib

/-!
Verification of the download-tracking subsystem of the research-dataset
sharing platform (backend/app/features/file/services/download_tracking.py
and backend/app/features/file/models.py), against its natural-language
specification.

The store is modelled as an explicit in-memory database (a list of ledger
rows plus a list of datasets); the SQLAlchemy session is modelled as a pair
of database snapshots: `committed` (the durable state) and `pending` (the
session view including staged, uncommitted writes).  `commit` publishes
`pending` into `committed`; `rollback` discards `pending`.  Storage
failures are injected through an explicit `FailSpec`, and a concurrent
writer racing on the `UNIQUE(user_id, dataset_id)` constraint is modelled
by an optional row that is committed by the other transaction between this
call's lookup and its commit.
-/

namespace DownloadTracking

/-- A row of the `user_downloads` ledger table
(`UserDownload` in backend/app/features/file/models.py): one row per
(user, dataset) pair, with `UNIQUE(user_id, dataset_id)`. -/
structure DownloadRecord where
  user_id : Nat
  dataset_id : Nat
  first_download_date : Nat
  last_download_date : Nat
  download_type : String
  file_id : Option Nat
  total_download_count : Nat
deriving DecidableEq, Repr

/-- The slice of the external `Dataset` entity this subsystem touches:
its id, display name and the denormalized aggregate `downloads_count`. -/
structure Dataset where
  dataset_id : Nat
  dataset_name : String
  downloads_count : Nat
deriving DecidableEq, Repr

/-- The relational store: the ledger table and the dataset table. -/
structure DB where
  downloads : List DownloadRecord
  datasets : List Dataset
deriving DecidableEq, Repr

/-- The SQLAlchemy session: durable state plus the session's own view with
staged writes, and a counter of storage round trips (used to express that
a rejected request never reaches the store). -/
structure Session where
  committed : DB
  pending : DB
  accesses : Nat
deriving DecidableEq, Repr

/-- Update the first element of a list satisfying `p` (the object returned
by `.first()` is mutated in place by the source; the unique constraint
means at most one row can match). -/
def updateFirst {α : Type} (p : α → Bool) (f : α → α) : List α → List α
  | [] => []
  | x :: xs => if p x then f x :: xs else x :: updateFirst p f xs

/-- `db.query(UserDownload).filter(user_id == u, dataset_id == d).first()`. -/
def findDownload (db : DB) (u d : Nat) : Option DownloadRecord :=
  db.downloads.find? (fun r => r.user_id == u && r.dataset_id == d)

/-- `db.query(Dataset).filter(Dataset.dataset_id == d).first()`. -/
def findDataset (db : DB) (d : Nat) : Option Dataset :=
  db.datasets.find? (fun x => x.dataset_id == d)

/-- Mutate the ledger row returned by `findDownload`. -/
def updateDownload (db : DB) (u d : Nat) (f : DownloadRecord → DownloadRecord) : DB :=
  { db with downloads := updateFirst (fun r => r.user_id == u && r.dataset_id == d) f db.downloads }

/-- Mutate the dataset row returned by `findDataset`. -/
def updateDataset (db : DB) (d : Nat) (f : Dataset → Dataset) : DB :=
  { db with datasets := updateFirst (fun x => x.dataset_id == d) f db.datasets }

/-- Which storage round trip of `track_download` fails with a generic
(`PersistenceFailure`) error.  The speculative insert's unique-constraint
violation is modelled separately (see `race` in `track_download`). -/
structure FailSpec where
  q_existing : Bool
  commit_repeat : Bool
  q_dataset_repeat : Bool
  q_dataset_first : Bool
  commit_first : Bool
  q_retry : Bool
  commit_retry : Bool
  q_dataset_retry : Bool
deriving DecidableEq, Repr

/-- No injected storage failure. -/
def noFails : FailSpec :=
  { q_existing := false, commit_repeat := false, q_dataset_repeat := false,
    q_dataset_first := false, commit_first := false, q_retry := false,
    commit_retry := false, q_dataset_retry := false }

/-- Outcome of `track_download`: the result dictionary
`{is_first_download, total_user_downloads, dataset_download_count}` on
success, or a propagated exception. -/
inductive TrackResult where
  | ok (is_first_download : Bool) (total_user_downloads : Nat) (dataset_download_count : Nat)
  | err (msg : String)
deriving DecidableEq, Repr

/-- `true` exactly when the call raised (`raise` at the end of the outer
`except` block, or the explicit race-resolution `raise`). -/
def TrackResult.isErr : TrackResult → Bool
  | .ok _ _ _ => false
  | .err _ => true

/-- The `is_first_download` field of a successful result. -/
def TrackResult.isFirst : TrackResult → Option Bool
  | .ok b _ _ => some b
  | .err _ => none

/-- The `total_user_downloads` field of a successful result. -/
def TrackResult.totalUser : TrackResult → Option Nat
  | .ok _ t _ => some t
  | .err _ => none

/-- The `dataset_download_count` field of a successful result. -/
def TrackResult.datasetCount : TrackResult → Option Nat
  | .ok _ _ c => some c
  | .err _ => none

/-- `db.rollback()`: discard staged writes. -/
def rollback (s : Session) : Session :=
  { s with pending := s.committed }

/--
`DownloadTrackingService.track_download` (download_tracking.py lines 54-177),
embedded step by step:

1. look up an existing `UserDownload` row for (user_id, dataset_id);
2. if found: `total_download_count += 1`, `last_download_date = now`, and
   if the stored `download_type` differs from the argument set it to
   `"mixed"`; commit; re-read the dataset for the current count (0 when the
   dataset row is missing);
3. if not found: stage a new row (`total_download_count = 1`, both dates =
   `now`), increment `dataset.downloads_count` when the dataset exists
   (otherwise leave it and report 0), and commit.  The commit enforces the
   constraints declared on `user_downloads` in models.py: the
   `UNIQUE(user_id, dataset_id)` constraint (violated when a concurrent
   request committed a row for the same pair first, `race`), and the
   foreign key on `dataset_id` (violated when the referenced dataset row
   does not exist; the `user_id`/`file_id` foreign keys reference entities
   outside this model and no claim concerns them).  Either violation
   raises `IntegrityError`: roll back, re-fetch a row for the pair; if one
   exists (the race case), increment its count and set its last date (the
   stored `download_type` is not touched on this path), commit, and report
   the current aggregate; if none exists (the foreign-key case), the call
   raises.

Any injected generic failure falls through to the outer `except`: roll back
and propagate. `race` is the row committed by a concurrent first-download
transaction for the same pair between this call's lookup and its commit
attempt; that transaction also performed its own increment of the
dataset's aggregate counter.
-/
def track_download (s : Session) (user_id dataset_id : Nat) (download_type : String)
    (file_id : Option Nat) (now : Nat) (fails : FailSpec)
    (race : Option DownloadRecord) : TrackResult × Session :=
  let s0 : Session := { s with accesses := s.accesses + 1 }
  if fails.q_existing then (.err "q_existing", rollback s0)
  else
    match findDownload s0.pending user_id dataset_id with
    | some existing =>
      let newCount := existing.total_download_count + 1
      let newType := if existing.download_type != download_type then "mixed"
                     else existing.download_type
      let s1 : Session :=
        { s0 with
          pending := updateDownload s0.pending user_id dataset_id
            (fun r => { r with total_download_count := newCount,
                               last_download_date := now,
                               download_type := newType }),
          accesses := s0.accesses + 1 }
      if fails.commit_repeat then (.err "commit_repeat", rollback s1)
      else
        let s2 : Session := { s1 with committed := s1.pending, accesses := s1.accesses + 1 }
        if fails.q_dataset_repeat then (.err "q_dataset_repeat", rollback s2)
        else
          let current_count :=
            match findDataset s2.pending dataset_id with
            | some ds => ds.downloads_count
            | none => 0
          (.ok false newCount current_count, s2)
    | none =>
      let newRec : DownloadRecord :=
        { user_id := user_id, dataset_id := dataset_id,
          first_download_date := now, last_download_date := now,
          download_type := download_type, file_id := file_id,
          total_download_count := 1 }
      let sIns : Session :=
        { s0 with
          pending := { s0.pending with downloads := s0.pending.downloads ++ [newRec] },
          accesses := s0.accesses + 1 }
      if fails.q_dataset_first then (.err "q_dataset_first", rollback sIns)
      else
        let step :=
          match findDataset sIns.pending dataset_id with
          | some ds =>
            (updateDataset sIns.pending dataset_id
              (fun x => { x with downloads_count := x.downloads_count + 1 }),
             ds.downloads_count + 1)
          | none => (sIns.pending, 0)
        let committedRace : DB :=
          match race with
          | some r =>
            updateDataset
              { sIns.committed with downloads := sIns.committed.downloads ++ [r] }
              r.dataset_id
              (fun x => { x with downloads_count := x.downloads_count + 1 })
          | none => sIns.committed
        let sC : Session :=
          { committed := committedRace, pending := step.1, accesses := sIns.accesses + 1 }
        if fails.commit_first then (.err "commit_first", rollback sC)
        else if ((findDownload sC.committed user_id dataset_id).isSome
                 || (findDataset sC.committed dataset_id).isNone) then
          let sR : Session := { rollback sC with accesses := sC.accesses + 1 }
          if fails.q_retry then (.err "q_retry", rollback sR)
          else
            match findDownload sR.pending user_id dataset_id with
            | some existing2 =>
              let newCount2 := existing2.total_download_count + 1
              let s3 : Session :=
                { sR with
                  pending := updateDownload sR.pending user_id dataset_id
                    (fun r => { r with total_download_count := newCount2,
                                       last_download_date := now }),
                  accesses := sR.accesses + 1 }
              if fails.commit_retry then (.err "commit_retry", rollback s3)
              else
                let s4 : Session := { s3 with committed := s3.pending, accesses := s3.accesses + 1 }
                if fails.q_dataset_retry then (.err "q_dataset_retry", rollback s4)
                else
                  let current_count :=
                    match findDataset s4.pending dataset_id with
                    | some ds => ds.downloads_count
                    | none => 0
                  (.ok false newCount2 current_count, s4)
            | none => (.err "race_resolution_failed", rollback sR)
        else
          (.ok true 1 step.2, { sC with committed := sC.pending })

/-- Insertion of one element into a list kept sorted in descending order of
`key` (models `order_by(desc(...))`). -/
def insertDescBy {α : Type} (key : α → Nat) (a : α) : List α → List α
  | [] => [a]
  | x :: xs => if key a ≥ key x then a :: x :: xs else x :: insertDescBy key a xs

/-- Sort a list in descending order of `key`. -/
def sortDescBy {α : Type} (key : α → Nat) : List α → List α
  | [] => []
  | x :: xs => insertDescBy key x (sortDescBy key xs)

/-- First occurrences of each value, given the values already seen
(models the grouping key set of a `GROUP BY`). -/
def dedupFrom (seen : List Nat) : List Nat → List Nat
  | [] => []
  | x :: xs => if seen.contains x then dedupFrom seen xs
               else x :: dedupFrom (x :: seen) xs

/-- One entry of the user download history result list. -/
structure HistoryEntry where
  dataset_id : Nat
  dataset_name : String
  first_download_date : Nat
  last_download_date : Nat
  download_type : String
  total_downloads : Nat
deriving DecidableEq, Repr

/-- `DownloadTrackingService.get_user_download_history` (lines 179-211):
join the ledger with the dataset table, keep the rows of `user_id`, order
by `last_download_date` descending, take `limit`, and project each row to
a history dictionary.  A pure read: the session is returned unchanged. -/
def get_user_download_history (s : Session) (user_id : Nat) (limit : Nat) :
    List HistoryEntry × Session :=
  let rows := s.pending.downloads.filter
    (fun r => r.user_id == user_id && (findDataset s.pending r.dataset_id).isSome)
  let ordered := (sortDescBy (fun r => r.last_download_date) rows).take limit
  (ordered.map (fun r =>
    { dataset_id := r.dataset_id,
      dataset_name := ((findDataset s.pending r.dataset_id).map
        (fun ds => ds.dataset_name)).getD "",
      first_download_date := r.first_download_date,
      last_download_date := r.last_download_date,
      download_type := r.download_type,
      total_downloads := r.total_download_count }), s)

/-- Bit length of a natural number (`natBits 0 = 0`, otherwise
`⌊log2 n⌋ + 1`); fuel-based structural recursion, `n` is enough fuel. -/
def bitsAux : Nat → Nat → Nat
  | 0, _ => 0
  | fuel + 1, n => if n = 0 then 0 else bitsAux fuel (n / 2) + 1

/-- Bit length of a natural number. -/
def natBits (n : Nat) : Nat := bitsAux n n

/-- `n / d` rounded to the nearest integer, ties to even: the rounding
used by IEEE-754 binary arithmetic and by CPython's `round`. -/
def divRoundHalfEven (n d : Nat) : Nat :=
  let fl := n / d
  let rem := n % d
  if 2 * rem < d then fl
  else if d < 2 * rem then fl + 1
  else if fl % 2 = 0 then fl else fl + 1

/-- The IEEE-754 binary64 value nearest to `n / d` (ties to even), as a
dyadic pair `(m, sh)` standing for `m * 2 ^ sh` with `2^52 ≤ m ≤ 2^53`
(`(0, 0)` for `n = 0`).  Exponent-range overflow and subnormal loss of
precision are not modelled: the per-dataset averages this subsystem
computes stay far inside the normal range (see `claim_C8_dataset_stats`,
whose hypotheses pin the quotient into `[1, 2^1024)`). -/
def nearestDouble (n d : Nat) : Nat × Int :=
  if n = 0 then (0, 0)
  else
    let b : Int := (natBits n : Int) - (natBits d : Int)
    let e : Int :=
      if 0 ≤ b then (if n < 2 ^ b.toNat * d then b - 1 else b)
      else (if n * 2 ^ (-b).toNat < d then b - 1 else b)
    let sh : Int := e - 52
    let m : Nat :=
      if 0 ≤ sh then divRoundHalfEven n (d * 2 ^ sh.toNat)
      else divRoundHalfEven (n * 2 ^ (-sh).toNat) d
    (m, sh)

/-- The exact rational value of a dyadic pair `(m, sh)`. -/
def dyadicVal (p : Nat × Int) : ℚ :=
  (p.1 : ℚ) * (2 : ℚ) ^ p.2

/-- Python's float true division on nonnegative integers
(`total_download_events / unique_downloaders`): the correctly rounded
binary64 quotient. -/
def floatDiv (n d : Nat) : Nat × Int := nearestDouble n d

/-- CPython's `round(x, 2)` on a binary64 value `x = m * 2 ^ sh`: round
the exact value of the float to the nearest multiple of 1/100 (ties to
even, computed on the exact binary value as CPython's correctly rounded
implementation does) and return the binary64 value nearest to that
decimal result. -/
def pyFloatRound2 (p : Nat × Int) : Nat × Int :=
  let k : Nat :=
    if 0 ≤ p.2 then p.1 * 100 * 2 ^ p.2.toNat
    else divRoundHalfEven (p.1 * 100) (2 ^ (-p.2).toNat)
  nearestDouble k 100

/-- The per-dataset analytics dictionary returned by
`get_dataset_download_stats`. -/
structure DatasetStats where
  dataset_id : Nat
  dataset_name : String
  official_download_count : Nat
  unique_downloaders : Nat
  total_download_events : Nat
  average_downloads_per_user : ℚ
  file_only : Nat
  dataset_only : Nat
  mixed : Nat
deriving DecidableEq, Repr

/-- `DownloadTrackingService.get_dataset_download_stats` (lines 213-258):
`none` models the `{"error": "Dataset not found"}` dictionary; otherwise
row count, `occurrence_count` sum, per-kind breakdown and the rounded
average per downloader (0 when there are none).  A pure read: the session
is returned unchanged. -/
def get_dataset_download_stats (s : Session) (dataset_id : Nat) :
    Option DatasetStats × Session :=
  match findDataset s.pending dataset_id with
  | none => (none, s)
  | some ds =>
    let downloads := s.pending.downloads.filter (fun r => r.dataset_id == dataset_id)
    let uniq := downloads.length
    let totalEvents : Nat := (downloads.map (fun r => r.total_download_count)).sum
    let file_downloads := (downloads.filter (fun r => r.download_type == "file")).length
    let dataset_downloads := (downloads.filter (fun r => r.download_type == "dataset")).length
    let mixed_downloads := (downloads.filter (fun r => r.download_type == "mixed")).length
    let avg : ℚ :=
      if uniq > 0 then
        dyadicVal (pyFloatRound2 (floatDiv totalEvents uniq))
      else 0
    (some
      { dataset_id := dataset_id,
        dataset_name := ds.dataset_name,
        official_download_count := ds.downloads_count,
        unique_downloaders := uniq,
        total_download_events := totalEvents,
        average_downloads_per_user := avg,
        file_only := file_downloads,
        dataset_only := dataset_downloads,
        mixed := mixed_downloads }, s)

/-- The platform-wide analytics dictionary:
(dataset_id, dataset_name, downloads_count) for the 10 most downloaded
datasets, and (user_id, datasets_downloaded, total_downloads) for the 10
most active downloaders. -/
structure PlatformStats where
  total_unique_downloads : Nat
  total_download_events : Nat
  popular_datasets : List (Nat × String × Nat)
  active_users : List (Nat × Nat × Nat)
deriving DecidableEq, Repr

/-- `DownloadTrackingService.get_platform_download_stats` (lines 260-315):
ledger row count, `occurrence_count` sum, top-10 datasets by aggregate
count, and per-user grouped event counts ordered by total downloads.
A pure read: the session is returned unchanged. -/
def get_platform_download_stats (s : Session) : PlatformStats × Session :=
  let total_unique := s.pending.downloads.length
  let total_events := (s.pending.downloads.map (fun r => r.total_download_count)).sum
  let popular := ((sortDescBy (fun ds => ds.downloads_count) s.pending.datasets).take 10).map
    (fun ds => (ds.dataset_id, ds.dataset_name, ds.downloads_count))
  let groups := (dedupFrom [] (s.pending.downloads.map (fun r => r.user_id))).map
    (fun u =>
      let rows := s.pending.downloads.filter (fun r => r.user_id == u)
      (u, rows.length, (rows.map (fun r => r.total_download_count)).sum))
  let active := (sortDescBy (fun g => g.2.2) groups).take 10
  ({ total_unique_downloads := total_unique,
     total_download_events := total_events,
     popular_datasets := popular,
     active_users := active }, s)

/-- `DownloadTrackingService.is_first_download` (lines 317-334). -/
def is_first_download (s : Session) (user_id dataset_id : Nat) : Bool :=
  (findDownload s.pending user_id dataset_id).isNone

/-- Result of the route boundary: FastAPI rejects the request with the
given status code before the handler body runs, or the handler runs and
calls the tracker. -/
inductive EndpointResult where
  | rejected (status : Nat)
  | tracked (r : TrackResult)
deriving DecidableEq, Repr

/-- Digit-sequence parser: the integer conversion the framework performs
on a declared `int` path parameter, over the segment's characters. -/
def parseDigitsAux (acc : Nat) : List Char → Option Nat
  | [] => some acc
  | c :: cs =>
    if '0' ≤ c ∧ c ≤ '9' then parseDigitsAux (acc * 10 + (c.toNat - '0'.toNat)) cs
    else none

/-- Parse a path segment as a (possibly negative) integer; `none` on an
empty or non-numeric segment. -/
def parsePathInt (raw : String) : Option Int :=
  match raw.data with
  | [] => none
  | '-' :: cs =>
    match cs with
    | [] => none
    | _ :: _ => (parseDigitsAux 0 cs).map (fun n => -(n : Int))
  | cs => (parseDigitsAux 0 cs).map (fun n => (n : Int))

/-- The validation boundary of the download route
(backend/app/features/dataset/api.py lines 363-422): the authenticated
user comes from `get_current_user` (missing or invalid credentials raise
401 before the handler body), and the path parameter is declared
`dataset_id: int = Path(..., gt=0)`, so a missing, non-integer or
non-positive path segment is rejected with 422 by the framework before
the handler body runs.  Only past both checks does the handler call
`track_download`. -/
def record_download_endpoint (s : Session) (current_user : Option Nat)
    (raw_dataset_id : String) (download_type : String) (file_id : Option Nat)
    (now : Nat) (fails : FailSpec) (race : Option DownloadRecord) :
    EndpointResult × Session :=
  match current_user with
  | none => (.rejected 401, s)
  | some uid =>
    match parsePathInt raw_dataset_id with
    | none => (.rejected 422, s)
    | some v =>
      if v ≤ 0 then (.rejected 422, s)
      else
        let out := track_download s uid v.toNat download_type file_id now fails race
        (.tracked out.1, out.2)

/-- An ordinary sequential call: a fresh session over durable state `db`,
no injected failure, no concurrent writer; returns the result and the
durable state after the call. -/
def callOnce (db : DB) (u d : Nat) (k : String) (fi : Option Nat) (t : Nat) :
    TrackResult × DB :=
  let out := track_download { committed := db, pending := db, accesses := 0 } u d k fi t noFails none
  (out.1, out.2.committed)

/-- The number of ledger rows referencing dataset `d`. -/
def rowsFor (db : DB) (d : Nat) : Nat :=
  (db.downloads.filter (fun r => r.dataset_id == d)).length

/-- The core invariant of the aggregate counter: every dataset's
`downloads_count` equals the number of distinct ledger rows referencing
it. -/
def counterInvariant (db : DB) : Prop :=
  ∀ ds ∈ db.datasets, ds.downloads_count = rowsFor db ds.dataset_id

/-- `dataset_id` is the primary key of the dataset table: no two rows of
the dataset table share an id. -/
def distinctDatasetIds (db : DB) : Prop :=
  db.datasets.Pairwise (fun a b => a.dataset_id ≠ b.dataset_id)

section ListLemmas

variable {α : Type}

lemma find?_append_of_none {p : α → Bool} {l1 l2 : List α}
    (h : l1.find? p = none) : (l1 ++ l2).find? p = l2.find? p := by
  induction l1 with
  | nil => simp
  | cons a l ih =>
    rw [List.find?_cons] at h
    rcases hpa : p a with _ | _
    · simp only [List.cons_append, List.find?_cons, hpa]
      exact ih (by simpa [hpa] using h)
    · simp [hpa] at h

lemma updateFirst_of_none {p : α → Bool} {f : α → α} {l : List α}
    (h : l.find? p = none) : updateFirst p f l = l := by
  induction l with
  | nil => rfl
  | cons a l ih =>
    rw [List.find?_cons] at h
    rcases hpa : p a with _ | _
    · simp only [updateFirst, hpa, if_neg Bool.false_ne_true, List.cons.injEq,
        eq_self_iff_true, true_and]
      exact ih (by simpa [hpa] using h)
    · simp [hpa] at h

lemma updateFirst_append_of_none {p : α → Bool} {f : α → α} {l1 l2 : List α}
    (h : l1.find? p = none) :
    updateFirst p f (l1 ++ l2) = l1 ++ updateFirst p f l2 := by
  induction l1 with
  | nil => rfl
  | cons a l ih =>
    rw [List.find?_cons] at h
    rcases hpa : p a with _ | _
    · simp only [List.cons_append, updateFirst, hpa, if_neg Bool.false_ne_true,
        List.cons.injEq, eq_self_iff_true, true_and]
      exact ih (by simpa [hpa] using h)
    · simp [hpa] at h

lemma find?_updateFirst_some {p : α → Bool} {f : α → α} {l : List α} {x : α}
    (h : l.find? p = some x) (hf : ∀ y, p (f y) = p y) :
    (updateFirst p f l).find? p = some (f x) := by
  induction l with
  | nil => simp at h
  | cons a l ih =>
    rw [List.find?_cons] at h
    rcases hpa : p a with _ | _
    · simp only [hpa] at h
      simp only [updateFirst, hpa, if_neg Bool.false_ne_true, List.find?_cons, hpa]
      exact ih h
    · simp only [hpa] at h
      injection h with h
      subst h
      simp [updateFirst, hpa, List.find?_cons, hf]

lemma updateFirst_decomp {p : α → Bool} (f : α → α) {l : List α} {x : α}
    (h : l.find? p = some x) :
    ∃ l1 l2, l = l1 ++ x :: l2 ∧ (∀ y ∈ l1, p y = false) ∧ p x = true ∧
      updateFirst p f l = l1 ++ f x :: l2 := by
  induction l with
  | nil => simp at h
  | cons a l ih =>
    rw [List.find?_cons] at h
    rcases hpa : p a with _ | _
    · simp only [hpa] at h
      obtain ⟨l1, l2, hl, hl1, hx, hu⟩ := ih h
      refine ⟨a :: l1, l2, by rw [hl]; rfl, ?_, hx, ?_⟩
      · intro y hy
        rcases List.mem_cons.1 hy with hy | hy
        · subst hy; exact hpa
        · exact hl1 y hy
      · simp only [updateFirst, hpa, if_neg Bool.false_ne_true, List.cons_append,
          List.cons.injEq, eq_self_iff_true, true_and]
        exact hu
    · simp only [hpa] at h
      cases h
      exact ⟨[], l, rfl, by simp, hpa, by simp [updateFirst, hpa]⟩

lemma length_filter_updateFirst {p q : α → Bool} {f : α → α}
    (hf : ∀ x, q (f x) = q x) (l : List α) :
    ((updateFirst p f l).filter q).length = (l.filter q).length := by
  induction l with
  | nil => rfl
  | cons a l ih =>
    rcases hpa : p a with _ | _
    · simp only [updateFirst, hpa, if_neg Bool.false_ne_true]
      rcases hqa : q a with _ | _ <;> simp [List.filter_cons, hqa, ih]
    · simp only [updateFirst, hpa, if_pos rfl]
      rcases hqa : q a with _ | _ <;>
        simp [List.filter_cons, hqa, hf a]

end ListLemmas

/-- `dataset.downloads_count if dataset else 0`: the aggregate value the
service reports for a dataset. -/
def aggOf (db : DB) (d : Nat) : Nat :=
  match findDataset db d with
  | some ds => ds.downloads_count
  | none => 0

/-- The repeat-download update the service applies to the found row. -/
def repeatUpdate (ty : String) (now : Nat) (r : DownloadRecord) :
    DownloadRecord → DownloadRecord :=
  fun x => { x with total_download_count := r.total_download_count + 1,
                    last_download_date := now,
                    download_type := if r.download_type != ty then "mixed"
                                     else r.download_type }

lemma track_repeat_eq (s : Session) (u d : Nat) (ty : String) (fi : Option Nat)
    (now : Nat) (fails : FailSpec) (race : Option DownloadRecord) (r : DownloadRecord)
    (hfind : findDownload s.pending u d = some r)
    (hq1 : fails.q_existing = false) (hq2 : fails.commit_repeat = false)
    (hq3 : fails.q_dataset_repeat = false) :
    track_download s u d ty fi now fails race =
      (.ok false (r.total_download_count + 1) (aggOf s.pending d),
       { committed := updateDownload s.pending u d (repeatUpdate ty now r),
         pending := updateDownload s.pending u d (repeatUpdate ty now r),
         accesses := s.accesses + 3 }) := by
  simp only [track_download, hq1, hq2, hq3, Bool.false_eq_true, if_false, hfind,
    repeatUpdate, aggOf]
  have hds : findDataset (updateDownload s.pending u d
      (fun x => { x with total_download_count := r.total_download_count + 1,
                         last_download_date := now,
                         download_type := if r.download_type != ty then "mixed"
                                          else r.download_type })) d
      = findDataset s.pending d := by
    simp [findDataset, updateDownload]
  rw [hds]
  simp only [repeatUpdate, Prod.mk.injEq, Session.mk.injEq, true_and, and_true,
    eq_self_iff_true]
  exact ⟨rfl, rfl⟩

/-- The row staged by the first-download path. -/
def firstRecord (u d : Nat) (ty : String) (fi : Option Nat) (now : Nat) : DownloadRecord :=
  { user_id := u, dataset_id := d, first_download_date := now,
    last_download_date := now, download_type := ty, file_id := fi,
    total_download_count := 1 }

/-- `downloads_count += 1` on a dataset row. -/
def bumpCount : Dataset → Dataset :=
  fun x => { x with downloads_count := x.downloads_count + 1 }


lemma track_first_some_eq (s : Session) (u d : Nat) (ty : String) (fi : Option Nat)
    (now : Nat) (fails : FailSpec) (ds0 : Dataset)
    (hfind : findDownload s.pending u d = none)
    (hpc : s.pending = s.committed)
    (hds : findDataset s.pending d = some ds0)
    (hq1 : fails.q_existing = false) (hq4 : fails.q_dataset_first = false)
    (hq5 : fails.commit_first = false) :
    track_download s u d ty fi now fails none =
      (.ok true 1 (ds0.downloads_count + 1),
       { committed :=
           { downloads := s.pending.downloads ++ [firstRecord u d ty fi now],
             datasets := updateFirst (fun x => x.dataset_id == d) bumpCount
               s.pending.datasets },
         pending :=
           { downloads := s.pending.downloads ++ [firstRecord u d ty fi now],
             datasets := updateFirst (fun x => x.dataset_id == d) bumpCount
               s.pending.datasets },
         accesses := s.accesses + 3 }) := by
  obtain ⟨cdb, pdb, acc⟩ := s
  simp only at hpc
  subst hpc
  obtain ⟨dl, dsl⟩ := pdb
  simp only [findDownload, findDataset] at hfind hds
  simp only [track_download, hq1, hq4, hq5, Bool.false_eq_true, if_false, findDownload,
    findDataset, updateDataset, firstRecord, bumpCount]
  rw [hfind]
  simp only [hds, hfind, Option.isSome_none, Option.isNone_some, Bool.or_self,
    Bool.false_or, Bool.false_eq_true, if_false]
  rfl

lemma track_first_nods_eq (s : Session) (u d : Nat) (ty : String) (fi : Option Nat)
    (now : Nat) (fails : FailSpec)
    (hfind : findDownload s.pending u d = none)
    (hpc : s.pending = s.committed)
    (hds : findDataset s.pending d = none)
    (hq1 : fails.q_existing = false) (hq4 : fails.q_dataset_first = false)
    (hq5 : fails.commit_first = false) (hq6 : fails.q_retry = false) :
    track_download s u d ty fi now fails none =
      (.err "race_resolution_failed",
       { committed := s.committed, pending := s.committed,
         accesses := s.accesses + 4 }) := by
  obtain ⟨cdb, pdb, acc⟩ := s
  simp only at hpc
  subst hpc
  obtain ⟨dl, dsl⟩ := pdb
  simp only [findDownload, findDataset] at hfind hds
  simp only [track_download, hq1, hq4, hq5, hq6, Bool.false_eq_true, if_false,
    findDownload, findDataset, firstRecord, rollback]
  rw [hfind]
  simp only [hds, hfind, Option.isSome_none, Option.isNone_none, Bool.false_or,
    if_true, Bool.false_eq_true, if_false]

lemma track_err_retry_nods (s : Session) (u d : Nat) (ty : String) (fi : Option Nat)
    (now : Nat) (fails : FailSpec)
    (hfind : findDownload s.pending u d = none)
    (hpc : s.pending = s.committed)
    (hds : findDataset s.pending d = none)
    (hq1 : fails.q_existing = false) (hq4 : fails.q_dataset_first = false)
    (hq5 : fails.commit_first = false) (hq6 : fails.q_retry = true) :
    track_download s u d ty fi now fails none =
      (.err "q_retry",
       { committed := s.committed, pending := s.committed,
         accesses := s.accesses + 4 }) := by
  obtain ⟨cdb, pdb, acc⟩ := s
  simp only at hpc
  subst hpc
  obtain ⟨dl, dsl⟩ := pdb
  simp only [findDownload, findDataset] at hfind hds
  simp only [track_download, hq1, hq4, hq5, hq6, Bool.false_eq_true, if_false,
    findDownload, findDataset, firstRecord, rollback]
  rw [hfind]
  simp only [hds, hfind, Option.isSome_none, Option.isNone_none, Bool.false_or,
    if_true, Bool.false_eq_true, if_false]

/-- The retry-path update applied to the concurrently created row: the
occurrence count and last date change, the stored kind does not. -/
def raceUpdate (now : Nat) (r : DownloadRecord) : DownloadRecord :=
  { r with total_download_count := r.total_download_count + 1,
           last_download_date := now }

lemma track_race_eq (s : Session) (u d : Nat) (ty : String) (fi : Option Nat)
    (now : Nat) (r : DownloadRecord) (ds0 : Dataset)
    (hfind : findDownload s.pending u d = none)
    (hpc : s.pending = s.committed)
    (hru : r.user_id = u) (hrd : r.dataset_id = d)
    (hds : findDataset s.pending d = some ds0) :
    track_download s u d ty fi now noFails (some r) =
      (.ok false (r.total_download_count + 1) (ds0.downloads_count + 1),
       { committed :=
           { downloads := s.pending.downloads ++ [raceUpdate now r],
             datasets := updateFirst (fun x => x.dataset_id == d) bumpCount
               s.pending.datasets },
         pending :=
           { downloads := s.pending.downloads ++ [raceUpdate now r],
             datasets := updateFirst (fun x => x.dataset_id == d) bumpCount
               s.pending.datasets },
         accesses := s.accesses + 6 }) := by
  obtain ⟨cdb, pdb, acc⟩ := s
  simp only at hpc
  subst hpc
  obtain ⟨dl, dsl⟩ := pdb
  simp only [findDownload, findDataset] at hfind hds
  subst hrd
  have hfr : List.find? (fun x : DownloadRecord => x.user_id == u && x.dataset_id == r.dataset_id)
      (dl ++ [r]) = some r := by
    rw [find?_append_of_none hfind]
    simp [List.find?_cons, hru]
  have hupd : updateFirst (fun x : DownloadRecord => x.user_id == u && x.dataset_id == r.dataset_id)
      (fun x => { x with total_download_count := r.total_download_count + 1,
                         last_download_date := now })
      (dl ++ [r]) = dl ++ [raceUpdate now r] := by
    rw [updateFirst_append_of_none hfind]
    simp [updateFirst, hru, raceUpdate]
  have hfds : List.find? (fun x : Dataset => x.dataset_id == r.dataset_id)
      (updateFirst (fun x : Dataset => x.dataset_id == r.dataset_id)
        (fun x => { x with downloads_count := x.downloads_count + 1 }) dsl)
      = some (bumpCount ds0) :=
    find?_updateFirst_some hds (by intro y; simp [bumpCount])
  simp only [track_download, noFails, Bool.false_eq_true, if_false, findDownload,
    findDataset, updateDataset, updateDownload, firstRecord]
  rw [hfind]
  simp only [hds, hfr, hupd, hfds, Option.isSome_some, Bool.true_or, if_pos,
    rollback, bumpCount]
  rfl

lemma rowsFor_append_single (db : DB) (dsl : List Dataset) (r : DownloadRecord) (i : Nat) :
    rowsFor { downloads := db.downloads ++ [r], datasets := dsl } i
      = rowsFor db i + (if r.dataset_id == i then 1 else 0) := by
  simp only [rowsFor, List.filter_append, List.length_append]
  rcases h : (r.dataset_id == i) with _ | _ <;> simp [List.filter_cons, h]

lemma counterInvariant_updateRows (db : DB) (p : DownloadRecord → Bool)
    (f : DownloadRecord → DownloadRecord)
    (hf : ∀ x, (f x).dataset_id = x.dataset_id) (hinv : counterInvariant db) :
    counterInvariant { db with downloads := updateFirst p f db.downloads } := by
  intro ds hds
  have hbase := hinv ds (by simpa using hds)
  have hlen : ((updateFirst p f db.downloads).filter
      (fun r => r.dataset_id == ds.dataset_id)).length
      = ((db.downloads).filter (fun r => r.dataset_id == ds.dataset_id)).length :=
    length_filter_updateFirst (by intro x; rw [hf x]) db.downloads
  simpa [rowsFor, hlen] using hbase

lemma counterInvariant_insert_bump (db : DB) (d : Nat) (r : DownloadRecord) (ds0 : Dataset)
    (hinv : counterInvariant db) (hdis : distinctDatasetIds db) (hr : r.dataset_id = d)
    (hds : findDataset db d = some ds0) :
    counterInvariant { downloads := db.downloads ++ [r],
                       datasets := updateFirst (fun x => x.dataset_id == d) bumpCount
                         db.datasets } := by
  obtain ⟨l1, l2, hl, hl1, hpx, hu⟩ := updateFirst_decomp bumpCount hds
  have hid0 : ds0.dataset_id = d := by simpa using hpx
  intro ds hmem
  simp only [hu] at hmem
  have hrows := rowsFor_append_single db
    (updateFirst (fun x => x.dataset_id == d) bumpCount db.datasets) r ds.dataset_id
  rcases List.mem_append.1 hmem with hm1 | hm2
  · -- an untouched dataset before the bumped one
    have hne : ((ds.dataset_id == d) : Bool) = false := hl1 ds hm1
    have hmem0 : ds ∈ db.datasets := by
      rw [hl]; exact List.mem_append.2 (Or.inl hm1)
    have hbase := hinv ds hmem0
    have hne2 : (r.dataset_id == ds.dataset_id) = false := by
      simp only [beq_eq_false_iff_ne, ne_eq] at hne ⊢
      rw [hr]; exact fun h => hne h.symm
    rw [hrows, hne2]
    simpa using hbase
  · rcases List.mem_cons.1 hm2 with hm | hm
    · -- the bumped dataset itself
      subst hm
      have hmem0 : ds0 ∈ db.datasets := by
        rw [hl]; exact List.mem_append.2 (Or.inr (List.mem_cons_self ds0 l2))
      have hbase := hinv ds0 hmem0
      have hfid : (bumpCount ds0).dataset_id = ds0.dataset_id := rfl
      have hre : (r.dataset_id == (bumpCount ds0).dataset_id) = true := by
        rw [hfid, hid0, hr]
        simp
      rw [hrows, hre]
      simp only [if_pos]
      have : rowsFor db (bumpCount ds0).dataset_id = rowsFor db ds0.dataset_id := by
        rw [hfid]
      rw [this, ← hbase]
      rfl
    · -- an untouched dataset after the bumped one
      have hmem0 : ds ∈ db.datasets := by
        rw [hl]; exact List.mem_append.2 (Or.inr (List.mem_cons_of_mem ds0 hm))
      have hbase := hinv ds hmem0
      have hne : ds0.dataset_id ≠ ds.dataset_id := by
        have hpair := hdis
        rw [distinctDatasetIds, hl] at hpair
        have := (List.pairwise_append.1 hpair).2.1
        exact (List.pairwise_cons.1 this).1 ds hm
      have hne2 : (r.dataset_id == ds.dataset_id) = false := by
        simp only [beq_eq_false_iff_ne, ne_eq]
        rw [hr, ← hid0]
        exact hne
      rw [hrows, hne2]
      simpa using hbase

/-- A small concrete store used to instantiate theorems with hypotheses:
one dataset (id 42, aggregate count 10) and an empty ledger. -/
def exDB : DB :=
  { downloads := [],
    datasets := [{ dataset_id := 42, dataset_name := "d", downloads_count := 10 }] }

/-- A fresh session over `exDB`. -/
def exSession : Session := { committed := exDB, pending := exDB, accesses := 0 }

/-- Claim C2: when no ledger row exists for (user_id, dataset_id) and the
dataset exists, `track_download` inserts, within one committed transaction,
a new row with `occurrence_count` 1, both timestamps set to now, the given
kind and file id, increments the dataset's aggregate counter by exactly 1,
and returns `isFirstDownload = true`, `userTotalDownloads = 1` and
`datasetDownloadCount` equal to the new aggregate value. -/
theorem claim_C2_first_download (s : Session) (u d : Nat) (ty : String)
    (fi : Option Nat) (now : Nat) (ds0 : Dataset) (out : TrackResult × Session)
    (hfind : findDownload s.pending u d = none)
    (hpc : s.pending = s.committed)
    (hds : findDataset s.pending d = some ds0)
    (hout : out = track_download s u d ty fi now noFails none) :
    out.1 = .ok true 1 (ds0.downloads_count + 1) ∧
    out.2.committed.downloads = s.pending.downloads ++
      [{ user_id := u, dataset_id := d, first_download_date := now,
         last_download_date := now, download_type := ty, file_id := fi,
         total_download_count := 1 }] ∧
    out.2.committed.datasets =
      updateFirst (fun x => x.dataset_id == d) bumpCount s.pending.datasets ∧
    (∃ ds1, findDataset out.2.committed d = some ds1 ∧
       ds1.downloads_count = ds0.downloads_count + 1) ∧
    out.2.pending = out.2.committed := by
  subst hout
  rw [track_first_some_eq s u d ty fi now noFails ds0 hfind hpc hds rfl rfl rfl]
  refine ⟨rfl, rfl, rfl, ?_, rfl⟩
  refine ⟨bumpCount ds0, ?_, rfl⟩
  exact find?_updateFirst_some hds (by intro y; simp [bumpCount])

/-- Witness for C2 at a concrete input. -/
theorem claim_C2_first_download_witness :
    (track_download exSession 7 42 "file" (some 3) 100 noFails none).1
      = .ok true 1 11 ∧
    (track_download exSession 7 42 "file" (some 3) 100 noFails none).2.pending
      = (track_download exSession 7 42 "file" (some 3) 100 noFails none).2.committed := by
  have h := claim_C2_first_download exSession 7 42 "file" (some 3) 100
    { dataset_id := 42, dataset_name := "d", downloads_count := 10 }
    (track_download exSession 7 42 "file" (some 3) 100 noFails none)
    (by decide) rfl (by decide) rfl
  exact ⟨h.1, h.2.2.2.2⟩

/-- Claim C3: when a ledger row exists for (user_id, dataset_id),
`track_download` increments its `occurrence_count` by 1, sets its last
download date to now, sets the stored kind to `"mixed"` exactly when the
given kind differs (leaving it unchanged otherwise), leaves the aggregate
counter unchanged, and returns `isFirstDownload = false`, the updated
occurrence count, and the unchanged aggregate value. -/
theorem claim_C3_repeat_download (s : Session) (u d : Nat) (ty : String)
    (fi : Option Nat) (now : Nat) (r : DownloadRecord) (ds0 : Dataset)
    (out : TrackResult × Session)
    (hfind : findDownload s.pending u d = some r)
    (hds : findDataset s.pending d = some ds0)
    (hout : out = track_download s u d ty fi now noFails none) :
    out.1 = .ok false (r.total_download_count + 1) ds0.downloads_count ∧
    out.2.committed.datasets = s.pending.datasets ∧
    (∃ r2, findDownload out.2.committed u d = some r2 ∧
       r2.total_download_count = r.total_download_count + 1 ∧
       r2.last_download_date = now ∧
       r2.download_type = (if r.download_type = ty then r.download_type else "mixed") ∧
       r2.first_download_date = r.first_download_date ∧
       r2.file_id = r.file_id) ∧
    out.2.pending = out.2.committed := by
  subst hout
  rw [track_repeat_eq s u d ty fi now noFails none r hfind rfl rfl rfl]
  refine ⟨by simp [aggOf, hds], by simp [updateDownload], ?_, rfl⟩
  refine ⟨repeatUpdate ty now r r, ?_, rfl, rfl, ?_, rfl, rfl⟩
  · exact find?_updateFirst_some hfind (by intro y; simp [repeatUpdate])
  · simp only [repeatUpdate]
    rcases h : r.download_type == ty with _ | _
    · have hne : ¬ r.download_type = ty := by simpa using h
      simp [bne, h, hne]
    · have he : r.download_type = ty := by simpa using h
      simp [bne, h, he]

/-- A concrete store with one existing ledger row, for repeat-download
witnesses: user 7 already downloaded dataset 42 once as a file download. -/
def exDB2 : DB :=
  { downloads := [{ user_id := 7, dataset_id := 42, first_download_date := 100,
                    last_download_date := 100, download_type := "file",
                    file_id := some 3, total_download_count := 1 }],
    datasets := [{ dataset_id := 42, dataset_name := "d", downloads_count := 11 }] }

/-- A fresh session over `exDB2`. -/
def exSession2 : Session := { committed := exDB2, pending := exDB2, accesses := 0 }

/-- Witness for C3 at a concrete input. -/
theorem claim_C3_repeat_download_witness :
    (track_download exSession2 7 42 "dataset" none 101 noFails none).1
      = .ok false 2 11 ∧
    (track_download exSession2 7 42 "dataset" none 101 noFails none).2.committed.datasets
      = exDB2.datasets := by
  have h := claim_C3_repeat_download exSession2 7 42 "dataset" none 101
    { user_id := 7, dataset_id := 42, first_download_date := 100,
      last_download_date := 100, download_type := "file", file_id := some 3,
      total_download_count := 1 }
    { dataset_id := 42, dataset_name := "d", downloads_count := 11 }
    (track_download exSession2 7 42 "dataset" none 101 noFails none)
    (by decide) (by decide) rfl
  exact ⟨h.1, h.2.1⟩

/-- Counterexample to C10 as stated: under the foreign key declared on
`user_downloads.dataset_id` (models.py line 38), a first download of a
nonexistent dataset does not insert-and-commit with result
`(true, 1, 0)`: the commit raises `IntegrityError`, the handler's re-fetch
finds no row for the pair, and the call raises; the store is unchanged. -/
theorem claim_C10_counterexample :
    (track_download exSession 7 99 "dataset" none 100 noFails none).1
      = .err "race_resolution_failed" ∧
    (track_download exSession 7 99 "dataset" none 100 noFails none).1
      ≠ .ok true 1 0 ∧
    (track_download exSession 7 99 "dataset" none 100 noFails none).2.committed
      = exDB := by
  refine ⟨by decide, by decide, by decide⟩

/-- Claim C10 (amended): when no ledger row exists for the pair and the
referenced dataset row does not exist, the call raises rather than
committing: the speculative insert's commit fails the foreign key on
`dataset_id` (an `IntegrityError`), the handler re-fetches and finds no
row for the pair, and the call raises the race-resolution error; no
ledger row is committed, no counter changes, and the session is rolled
back (the code's `new_count = 0` fallback at lines 131-133 is unreachable
under the declared schema). -/
theorem claim_C10_missing_dataset (s : Session) (u d : Nat) (ty : String)
    (fi : Option Nat) (now : Nat) (out : TrackResult × Session)
    (hfind : findDownload s.pending u d = none)
    (hpc : s.pending = s.committed)
    (hds : findDataset s.pending d = none)
    (hout : out = track_download s u d ty fi now noFails none) :
    out.1 = .err "race_resolution_failed" ∧
    out.1.isErr = true ∧
    out.2.committed = s.committed ∧
    out.2.pending = s.committed := by
  subst hout
  rw [track_first_nods_eq s u d ty fi now noFails hfind hpc hds rfl rfl rfl rfl]
  exact ⟨rfl, rfl, rfl, rfl⟩

/-- Witness for the amended C10 at a concrete input (dataset 99 does not
exist). -/
theorem claim_C10_missing_dataset_witness :
    (track_download exSession 7 99 "dataset" none 100 noFails none).1.isErr
      = true ∧
    (track_download exSession 7 99 "dataset" none 100 noFails none).2.committed
      = exSession.committed := by
  have h := claim_C10_missing_dataset exSession 7 99 "dataset" none 100
    (track_download exSession 7 99 "dataset" none 100 noFails none)
    (by decide) rfl (by decide) rfl
  exact ⟨h.2.1, h.2.2.1⟩

/-- Claim C9: every analytics operation (per-user history, per-dataset
stats, platform-wide stats) leaves the entire store unchanged: no ledger
row and no dataset counter is created, modified or deleted. -/
theorem claim_C9_analytics_pure (s : Session) (u lim d : Nat) :
    (get_user_download_history s u lim).2 = s ∧
    (get_dataset_download_stats s d).2 = s ∧
    (get_platform_download_stats s).2 = s := by
  refine ⟨rfl, ?_, rfl⟩
  rcases h : findDataset s.pending d with _ | ds <;>
    simp [get_dataset_download_stats, h]

/-- Claim C7: a download request with missing credentials or with a
missing, malformed or non-positive dataset identifier is rejected at the
route boundary before any storage access: the session (including its
storage round-trip counter) is untouched and the tracker is never
invoked. -/
theorem claim_C7_invalid_input (s : Session) (cu : Option Nat) (raw : String)
    (ty : String) (fi : Option Nat) (now : Nat) (fails : FailSpec)
    (race : Option DownloadRecord) (out : EndpointResult × Session)
    (hbad : cu = none ∨ parsePathInt raw = none ∨ ∃ v, parsePathInt raw = some v ∧ v ≤ 0)
    (hout : out = record_download_endpoint s cu raw ty fi now fails race) :
    (∃ c, out.1 = .rejected c) ∧ out.2 = s := by
  subst hout
  rcases hbad with h | h | ⟨v, hv, hle⟩
  · subst h
    exact ⟨⟨401, rfl⟩, rfl⟩
  · rcases hcu : cu with _ | uid
    · exact ⟨⟨401, rfl⟩, rfl⟩
    · simp only [record_download_endpoint]
      rw [h]
      exact ⟨⟨422, rfl⟩, rfl⟩
  · rcases hcu : cu with _ | uid
    · exact ⟨⟨401, rfl⟩, rfl⟩
    · simp only [record_download_endpoint]
      rw [hv]
      simp only [if_pos hle]
      exact ⟨⟨422, rfl⟩, trivial⟩

/-- Witness for C7 at a concrete input (malformed path parameter). -/
theorem claim_C7_invalid_input_witness :
    (record_download_endpoint exSession (some 7) "abc" "file" none 5 noFails none).1
      = .rejected 422 ∧
    (record_download_endpoint exSession (some 7) "abc" "file" none 5 noFails none).2
      = exSession := by
  have h := claim_C7_invalid_input exSession (some 7) "abc" "file" none 5 noFails none
    (record_download_endpoint exSession (some 7) "abc" "file" none 5 noFails none)
    (Or.inr (Or.inl (by decide))) rfl
  exact ⟨by decide, h.2⟩

/-- Claim C5: the invariant "each dataset's aggregate counter equals the
number of distinct ledger rows referencing it" is preserved by every
completed `track_download` call, on both the first-download and the
repeat-download path, given distinct dataset primary keys. -/
theorem claim_C5_counter_invariant (s : Session) (u d : Nat) (ty : String)
    (fi : Option Nat) (now : Nat)
    (hpc : s.pending = s.committed)
    (hinv : counterInvariant s.committed)
    (hdis : distinctDatasetIds s.committed) :
    counterInvariant (track_download s u d ty fi now noFails none).2.committed := by
  rcases hfind : findDownload s.pending u d with _ | r
  · rcases hds : findDataset s.pending d with _ | ds0
    · rw [track_first_nods_eq s u d ty fi now noFails hfind hpc hds rfl rfl rfl rfl]
      exact hinv
    · rw [track_first_some_eq s u d ty fi now noFails ds0 hfind hpc hds rfl rfl rfl]
      exact counterInvariant_insert_bump s.pending d (firstRecord u d ty fi now) ds0
        (hpc ▸ hinv) (hpc ▸ hdis) rfl hds
  · rw [track_repeat_eq s u d ty fi now noFails none r hfind rfl rfl rfl]
    exact counterInvariant_updateRows s.pending _ _ (fun x => rfl) (hpc ▸ hinv)

/-- A concrete store satisfying the counter invariant: dataset 42 has one
ledger row and aggregate count 1. -/
def exDB3 : DB :=
  { downloads := [{ user_id := 7, dataset_id := 42, first_download_date := 100,
                    last_download_date := 100, download_type := "file",
                    file_id := some 3, total_download_count := 4 }],
    datasets := [{ dataset_id := 42, dataset_name := "d", downloads_count := 1 }] }

/-- A fresh session over `exDB3`. -/
def exSession3 : Session := { committed := exDB3, pending := exDB3, accesses := 0 }

/-- Witness for C5 at a concrete input. -/
theorem claim_C5_counter_invariant_witness :
    counterInvariant (track_download exSession3 9 42 "file" (some 3) 7 noFails none).2.committed := by
  exact claim_C5_counter_invariant exSession3 9 42 "file" (some 3) 7 rfl
    (by unfold counterInvariant rowsFor; decide)
    (by unfold distinctDatasetIds; decide)

/-- The decimal-midpoint check for the rounding model: the binary64 value
nearest `107/40` lies just below `2.675`, so Python's `round(107/40, 2)`
is the double `2.67`, not `2.68` — and the model agrees. -/
lemma pyFloatRound2_halfway :
    pyFloatRound2 (floatDiv 107 40) = nearestDouble 267 100 ∧
    dyadicVal (nearestDouble 267 100) ≠ dyadicVal (nearestDouble 268 100) := by
  constructor
  · decide
  · have h267 : nearestDouble 267 100 = (6012305502539612, -51) := by decide
    have h268 : nearestDouble 268 100 = (6034823500676465, -51) := by decide
    rw [h267, h268]
    norm_num [dyadicVal]

/-- A concrete store for the analytics counterexample: dataset 1 has three
downloaders with occurrence counts 1, 1 and 2 (4 events over 3 users). -/
def statsDB : DB :=
  { downloads :=
      [{ user_id := 1, dataset_id := 1, first_download_date := 0,
         last_download_date := 0, download_type := "file", file_id := none,
         total_download_count := 1 },
       { user_id := 2, dataset_id := 1, first_download_date := 0,
         last_download_date := 0, download_type := "file", file_id := none,
         total_download_count := 1 },
       { user_id := 3, dataset_id := 1, first_download_date := 0,
         last_download_date := 0, download_type := "dataset", file_id := none,
         total_download_count := 2 }],
    datasets := [{ dataset_id := 1, dataset_name := "s", downloads_count := 3 }] }

/-- A fresh session over `statsDB`. -/
def statsSession : Session := { committed := statsDB, pending := statsDB, accesses := 0 }

/-- Counterexample to C8 as stated: with 4 events over 3 downloaders the
reported average is the binary64 value of `round(4/3, 2) = 1.33`
(the dyadic `5989787504402760 * 2 ^ (-52)`), which is not `4/3`. -/
theorem claim_C8_counterexample :
    ((get_dataset_download_stats statsSession 1).1.map
        (fun st => st.average_downloads_per_user))
      = some (dyadicVal (5989787504402760, -52)) ∧
    ((get_dataset_download_stats statsSession 1).1.map
        (fun st => (st.total_download_events, st.unique_downloaders))) = some (4, 3) ∧
    dyadicVal (5989787504402760, -52) ≠ (4 : ℚ) / 3 := by
  have hpair : pyFloatRound2 (floatDiv 4 3) = (5989787504402760, -52) := by decide
  refine ⟨?_, by decide, by norm_num [dyadicVal]⟩
  simp only [get_dataset_download_stats, statsSession, statsDB]
  norm_num [findDataset, List.find?, List.filter, List.map, List.sum, hpair]

/-- Claim C8 (amended): for every existing dataset the analytics query
returns `unique_downloaders` equal to the number of ledger rows for that
dataset, `total_download_events` equal to the sum of their occurrence
counts, and an average per downloader equal to the quotient of the two
computed in IEEE-754 double precision and rounded to 2 decimal places by
Python's `round` (0 when there are no downloaders).  The two extra
hypotheses — every ledger row of the dataset has occurrence count at
least 1 (the schema's `occurrence_count ≥ 1` contract), and the event
total is below `2 ^ 1024` — pin the quotient into `[1, 2 ^ 1024)`, the
range where the binary64 model is exact (no overflow, no subnormals). -/
theorem claim_C8_dataset_stats (s : Session) (d : Nat) (ds0 : Dataset)
    (hds : findDataset s.pending d = some ds0)
    (hcounts : ∀ r ∈ s.pending.downloads, r.dataset_id = d →
       1 ≤ r.total_download_count)
    (hbound : ((s.pending.downloads.filter (fun r => r.dataset_id == d)).map
        (fun r => r.total_download_count)).sum < 2 ^ 1024) :
    ∃ st, (get_dataset_download_stats s d).1 = some st ∧
      st.unique_downloaders
        = (s.pending.downloads.filter (fun r => r.dataset_id == d)).length ∧
      st.total_download_events
        = ((s.pending.downloads.filter (fun r => r.dataset_id == d)).map
            (fun r => r.total_download_count)).sum ∧
      st.average_downloads_per_user
        = (if 0 < st.unique_downloaders then
             dyadicVal (pyFloatRound2
               (floatDiv st.total_download_events st.unique_downloaders))
           else 0) ∧
      st.unique_downloaders ≤ st.total_download_events ∧
      st.total_download_events < 2 ^ 1024 ∧
      st.official_download_count = ds0.downloads_count := by
  refine ⟨(get_dataset_download_stats s d).1.getD
    { dataset_id := d, dataset_name := "", official_download_count := 0,
      unique_downloaders := 0, total_download_events := 0,
      average_downloads_per_user := 0, file_only := 0, dataset_only := 0,
      mixed := 0 }, ?_⟩
  simp only [get_dataset_download_stats, hds]
  refine ⟨rfl, rfl, rfl, ?_, ?_, ?_, rfl⟩
  · simp only [Option.getD_some, Nat.pos_iff_ne_zero]
  · simp only [Option.getD_some]
    have hlen : ((s.pending.downloads.filter (fun r => r.dataset_id == d)).map
        (fun r => r.total_download_count)).length
        = (s.pending.downloads.filter (fun r => r.dataset_id == d)).length :=
      List.length_map _ _
    rw [← hlen]
    refine List.length_le_sum_of_one_le _ ?_
    intro i hi
    obtain ⟨r, hr, hri⟩ := List.mem_map.1 hi
    have hrd : r.dataset_id = d := by
      have := List.of_mem_filter hr
      simpa using this
    have := hcounts r (List.mem_of_mem_filter hr) hrd
    omega
  · simpa using hbound

/-- Witness for the amended C8 at a concrete input. -/
theorem claim_C8_dataset_stats_witness :
    (get_dataset_download_stats statsSession 1).1.map
      (fun st => (st.unique_downloaders, st.total_download_events)) = some (3, 4) := by
  obtain ⟨st, h1, h2, h3, h4, h5⟩ := claim_C8_dataset_stats statsSession 1
    { dataset_id := 1, dataset_name := "s", downloads_count := 3 } (by decide)
    (by decide)
    (by
      have hs : ((statsSession.pending.downloads.filter
          (fun r => r.dataset_id == 1)).map
          (fun r => r.total_download_count)).sum = 4 := by decide
      rw [hs]
      calc (4 : ℕ) < 2 ^ 3 := by norm_num
        _ ≤ 2 ^ 1024 := Nat.pow_le_pow_right (by norm_num) (by norm_num))
  rw [h1]
  show some (st.unique_downloaders, st.total_download_events) = some (3, 4)
  rw [h2, h3]
  decide

/-- The row a concurrent request commits in the C4 scenario: user 9's
first download of dataset 42 as a dataset download. -/
def raceRow : DownloadRecord :=
  { user_id := 9, dataset_id := 42, first_download_date := 5,
    last_download_date := 5, download_type := "dataset", file_id := none,
    total_download_count := 1 }

/-- Counterexample to C4 as stated: when the speculative insert loses the
race and the stored kind (`"dataset"`) differs from this call's kind
(`"file"`), the retry path does not update the stored kind: it stays
`"dataset"`, neither `"mixed"` nor `"file"`. -/
theorem claim_C4_counterexample :
    ((findDownload
        (track_download exSession 9 42 "file" none 7 noFails (some raceRow)).2.committed
        9 42).map (fun r => r.download_type)) = some "dataset" ∧
    ((findDownload
        (track_download exSession 9 42 "file" none 7 noFails (some raceRow)).2.committed
        9 42).map (fun r => r.total_download_count)) = some 2 ∧
    ("dataset" : String) ≠ "mixed" ∧ ("dataset" : String) ≠ "file" := by
  refine ⟨by decide, by decide, by decide, by decide⟩

/-- Claim C4 (amended): a unique-constraint violation on the speculative
insert (a concurrent request committed a row for the same pair first) is
fully absorbed: the insert transaction is rolled back, the now-existing
row is re-fetched and updated — its occurrence count is incremented and
its last download date set to now, while the stored download kind is left
unchanged even when the given kind differs — and the call returns
`isFirstDownload = false` with the current aggregate value, the counter
having been incremented only once (by the concurrent transaction, not
again by this call). -/
theorem claim_C4_race_absorbed (s : Session) (u d : Nat) (ty : String)
    (fi : Option Nat) (now : Nat) (r : DownloadRecord) (ds0 : Dataset)
    (out : TrackResult × Session)
    (hfind : findDownload s.pending u d = none)
    (hpc : s.pending = s.committed)
    (hru : r.user_id = u) (hrd : r.dataset_id = d)
    (hds : findDataset s.pending d = some ds0)
    (hout : out = track_download s u d ty fi now noFails (some r)) :
    out.1.isErr = false ∧
    out.1 = .ok false (r.total_download_count + 1) (ds0.downloads_count + 1) ∧
    (∃ r2, findDownload out.2.committed u d = some r2 ∧
       r2.total_download_count = r.total_download_count + 1 ∧
       r2.last_download_date = now ∧
       r2.download_type = r.download_type ∧
       r2.first_download_date = r.first_download_date) ∧
    (∃ ds1, findDataset out.2.committed d = some ds1 ∧
       ds1.downloads_count = ds0.downloads_count + 1) ∧
    out.2.pending = out.2.committed := by
  subst hout
  rw [track_race_eq s u d ty fi now r ds0 hfind hpc hru hrd hds]
  have hcn : s.pending.downloads.find?
      (fun x => x.user_id == u && x.dataset_id == d) = none := hfind
  refine ⟨rfl, rfl, ?_, ?_, rfl⟩
  · refine ⟨raceUpdate now r, ?_, rfl, rfl, rfl, rfl⟩
    show (s.pending.downloads ++ [raceUpdate now r]).find?
      (fun x => x.user_id == u && x.dataset_id == d) = some (raceUpdate now r)
    rw [find?_append_of_none hcn]
    simp [List.find?_cons, raceUpdate, hru, hrd]
  · refine ⟨bumpCount ds0, ?_, rfl⟩
    exact find?_updateFirst_some hds (by intro y; simp [bumpCount])

/-- Witness for the amended C4 at a concrete input. -/
theorem claim_C4_race_absorbed_witness :
    (track_download exSession 9 42 "file" none 7 noFails (some raceRow)).1
      = .ok false 2 11 ∧
    (track_download exSession 9 42 "file" none 7 noFails (some raceRow)).2.pending
      = (track_download exSession 9 42 "file" none 7 noFails (some raceRow)).2.committed := by
  have h := claim_C4_race_absorbed exSession 9 42 "file" none 7 raceRow
    { dataset_id := 42, dataset_name := "d", downloads_count := 10 }
    (track_download exSession 9 42 "file" none 7 noFails (some raceRow))
    (by decide) rfl rfl rfl (by decide) rfl
  exact ⟨h.2.1, h.2.2.2.2⟩

/-- `M` sequential calls for the same (user, dataset) pair: the durable
state and, in call order, the results of the calls.  `ks`, `fis` and `ts`
give each call's download kind, file id and timestamp. -/
def runSeq (u d : Nat) (ks : Nat → String) (fis : Nat → Option Nat)
    (ts : Nat → Nat) (db : DB) : Nat → DB × List TrackResult
  | 0 => (db, [])
  | m + 1 =>
    let prev := runSeq u d ks fis ts db m
    let step := callOnce prev.1 u d (ks m) (fis m) (ts m)
    (step.2, prev.2 ++ [step.1])

lemma runSeq_state (u d : Nat) (ks : Nat → String) (fis : Nat → Option Nat)
    (ts : Nat → Nat) (db0 : DB) (ds0 : Dataset)
    (h0 : findDownload db0 u d = none)
    (hds : findDataset db0 d = some ds0) :
    ∀ k, 1 ≤ k →
      ∃ row : DownloadRecord,
        (runSeq u d ks fis ts db0 k).1.downloads = db0.downloads ++ [row] ∧
        row.user_id = u ∧ row.dataset_id = d ∧ row.total_download_count = k ∧
        (runSeq u d ks fis ts db0 k).1.datasets
          = updateFirst (fun x => x.dataset_id == d) bumpCount db0.datasets ∧
        ((runSeq u d ks fis ts db0 k).2.countP
          (fun x => x.isFirst == some true)) = 1 ∧
        ((runSeq u d ks fis ts db0 k).2.countP
          (fun x => x.isFirst == some false)) = k - 1 ∧
        (runSeq u d ks fis ts db0 k).2.getLast?
          = some (if k = 1 then TrackResult.ok true 1 (ds0.downloads_count + 1)
                  else TrackResult.ok false k (ds0.downloads_count + 1)) := by
  intro k hk
  induction k, hk using Nat.le_induction with
  | base =>
    have hcall := track_first_some_eq
      { committed := db0, pending := db0, accesses := 0 } u d (ks 0) (fis 0) (ts 0)
      noFails ds0 h0 rfl hds rfl rfl rfl
    refine ⟨firstRecord u d (ks 0) (fis 0) (ts 0), ?_, rfl, rfl, rfl, ?_, ?_, ?_, ?_⟩
    · show (callOnce db0 u d (ks 0) (fis 0) (ts 0)).2.downloads = _
      simp only [callOnce, hcall]
    · show (callOnce db0 u d (ks 0) (fis 0) (ts 0)).2.datasets = _
      simp only [callOnce, hcall]
    · show ([] ++ [(callOnce db0 u d (ks 0) (fis 0) (ts 0)).1]).countP _ = 1
      simp only [callOnce, hcall]
      simp [List.countP_cons, TrackResult.isFirst]
    · show ([] ++ [(callOnce db0 u d (ks 0) (fis 0) (ts 0)).1]).countP _ = 0
      simp only [callOnce, hcall]
      simp [List.countP_cons, TrackResult.isFirst]
    · show ([] ++ [(callOnce db0 u d (ks 0) (fis 0) (ts 0)).1]).getLast? = _
      simp only [callOnce, hcall]
      simp
  | succ k hk ih =>
    obtain ⟨row, hdl, hrow_u, hrow_d, hrow_c, hdsl, hcT, hcF, hlast⟩ := ih
    have hprow : (fun x : DownloadRecord => x.user_id == u && x.dataset_id == d) row
        = true := by
      simp [hrow_u, hrow_d]
    have hfindk : findDownload (runSeq u d ks fis ts db0 k).1 u d = some row := by
      show (runSeq u d ks fis ts db0 k).1.downloads.find? _ = some row
      rw [hdl, find?_append_of_none h0]
      simp [List.find?_cons, hprow]
    have hfdsk : findDataset (runSeq u d ks fis ts db0 k).1 d = some (bumpCount ds0) := by
      show (runSeq u d ks fis ts db0 k).1.datasets.find? _ = some (bumpCount ds0)
      rw [hdsl]
      exact find?_updateFirst_some hds (by intro y; simp [bumpCount])
    have hcall := track_repeat_eq
      { committed := (runSeq u d ks fis ts db0 k).1,
        pending := (runSeq u d ks fis ts db0 k).1, accesses := 0 }
      u d (ks k) (fis k) (ts k) noFails none row hfindk rfl rfl rfl
    have hagg : aggOf (runSeq u d ks fis ts db0 k).1 d = ds0.downloads_count + 1 := by
      simp only [aggOf, hfdsk, bumpCount]
    have hupdl : updateFirst (fun x : DownloadRecord => x.user_id == u && x.dataset_id == d)
        (repeatUpdate (ks k) (ts k) row) (runSeq u d ks fis ts db0 k).1.downloads
        = db0.downloads ++ [repeatUpdate (ks k) (ts k) row row] := by
      rw [hdl, updateFirst_append_of_none h0]
      simp [updateFirst, hprow]
    refine ⟨repeatUpdate (ks k) (ts k) row row, ?_, ?_, ?_, ?_, ?_, ?_, ?_, ?_⟩
    · show (callOnce (runSeq u d ks fis ts db0 k).1 u d (ks k) (fis k) (ts k)).2.downloads = _
      simp only [callOnce, hcall, hagg]
      simp only [updateDownload]
      exact hupdl
    · simp [repeatUpdate, hrow_u]
    · simp [repeatUpdate, hrow_d]
    · simp [repeatUpdate, hrow_c]
    · show (callOnce (runSeq u d ks fis ts db0 k).1 u d (ks k) (fis k) (ts k)).2.datasets = _
      simp only [callOnce, hcall, hagg]
      simp only [updateDownload]
      exact hdsl
    · show ((runSeq u d ks fis ts db0 k).2
        ++ [(callOnce (runSeq u d ks fis ts db0 k).1 u d (ks k) (fis k) (ts k)).1]).countP _ = 1
      simp only [callOnce, hcall, hagg]
      rw [List.countP_append, hcT]
      simp [List.countP_cons, TrackResult.isFirst]
    · show ((runSeq u d ks fis ts db0 k).2
        ++ [(callOnce (runSeq u d ks fis ts db0 k).1 u d (ks k) (fis k) (ts k)).1]).countP _
        = (k + 1) - 1
      simp only [callOnce, hcall, hagg]
      rw [List.countP_append, hcF]
      simp [List.countP_cons, TrackResult.isFirst]
      omega
    · show ((runSeq u d ks fis ts db0 k).2
        ++ [(callOnce (runSeq u d ks fis ts db0 k).1 u d (ks k) (fis k) (ts k)).1]).getLast? = _
      simp only [callOnce, hcall, hagg]
      rw [List.getLast?_concat]
      have : ¬ (k + 1 = 1) := by omega
      simp [this, hrow_c]

lemma runSeq_length (u d : Nat) (ks : Nat → String) (fis : Nat → Option Nat)
    (ts : Nat → Nat) (db : DB) : ∀ k, (runSeq u d ks fis ts db k).2.length = k := by
  intro k
  induction k with
  | zero => rfl
  | succ k ih => simp [runSeq, ih]

/-- Claim C1: for M ≥ 1 sequential `track_download` calls for the same
(user, dataset) pair starting with no ledger row for the pair and an
existing dataset, exactly 1 of the M results reports
`isFirstDownload = true` and M−1 report `false`, the final call returns
`userTotalDownloads = M`, the ledger row's occurrence count equals M, and
the dataset's aggregate counter has increased by exactly 1. -/
theorem claim_C1_sequential_calls (u d M : Nat) (ks : Nat → String)
    (fis : Nat → Option Nat) (ts : Nat → Nat) (db0 : DB) (ds0 : Dataset)
    (out : DB × List TrackResult)
    (hM : 1 ≤ M)
    (h0 : findDownload db0 u d = none)
    (hds : findDataset db0 d = some ds0)
    (hout : out = runSeq u d ks fis ts db0 M) :
    out.2.length = M ∧
    (out.2.countP (fun x => x.isFirst == some true)) = 1 ∧
    (out.2.countP (fun x => x.isFirst == some false)) = M - 1 ∧
    (∃ res, out.2.getLast? = some res ∧ res.totalUser = some M) ∧
    (∃ row, findDownload out.1 u d = some row ∧ row.total_download_count = M) ∧
    (∃ ds1, findDataset out.1 d = some ds1 ∧
       ds1.downloads_count = ds0.downloads_count + 1) := by
  subst hout
  obtain ⟨row, hdl, hrow_u, hrow_d, hrow_c, hdsl, hcT, hcF, hlast⟩ :=
    runSeq_state u d ks fis ts db0 ds0 h0 hds M hM
  refine ⟨runSeq_length u d ks fis ts db0 M, hcT, hcF, ?_, ?_, ?_⟩
  · rcases Nat.eq_or_lt_of_le hM with h1 | h1
    · refine ⟨TrackResult.ok true 1 (ds0.downloads_count + 1), ?_, ?_⟩
      · rw [hlast, if_pos h1.symm]
      · simp only [TrackResult.totalUser, ← h1]
    · have hne : ¬ (M = 1) := by omega
      refine ⟨TrackResult.ok false M (ds0.downloads_count + 1), ?_, rfl⟩
      rw [hlast, if_neg hne]
  · refine ⟨row, ?_, hrow_c⟩
    show (runSeq u d ks fis ts db0 M).1.downloads.find? _ = some row
    rw [hdl, find?_append_of_none h0]
    simp [List.find?_cons, hrow_u, hrow_d]
  · refine ⟨bumpCount ds0, ?_, rfl⟩
    show (runSeq u d ks fis ts db0 M).1.datasets.find? _ = some (bumpCount ds0)
    rw [hdsl]
    exact find?_updateFirst_some hds (by intro y; simp [bumpCount])

/-- Witness for C1 at a concrete input: three calls by user 7 for
dataset 42. -/
theorem claim_C1_sequential_calls_witness :
    ((runSeq 7 42 (fun _ => "file") (fun _ => none) (fun n => n) exDB 3).2.countP
       (fun x => x.isFirst == some true)) = 1 ∧
    ((runSeq 7 42 (fun _ => "file") (fun _ => none) (fun n => n) exDB 3).2.countP
       (fun x => x.isFirst == some false)) = 2 ∧
    (runSeq 7 42 (fun _ => "file") (fun _ => none) (fun n => n) exDB 3).2.length = 3 := by
  have h := claim_C1_sequential_calls 7 42 3 (fun _ => "file") (fun _ => none)
    (fun n => n) exDB { dataset_id := 42, dataset_name := "d", downloads_count := 10 }
    (runSeq 7 42 (fun _ => "file") (fun _ => none) (fun n => n) exDB 3)
    (by decide) (by decide) (by decide) rfl
  exact ⟨h.2.1, h.2.2.1, h.1⟩

lemma track_err_lookup (s : Session) (u d : Nat) (ty : String) (fi : Option Nat)
    (now : Nat) (fails : FailSpec) (race : Option DownloadRecord)
    (hq1 : fails.q_existing = true) :
    track_download s u d ty fi now fails race =
      (.err "q_existing",
       { committed := s.committed, pending := s.committed,
         accesses := s.accesses + 1 }) := by
  simp only [track_download, hq1, if_true, rollback]

lemma track_err_commit_repeat (s : Session) (u d : Nat) (ty : String)
    (fi : Option Nat) (now : Nat) (fails : FailSpec) (race : Option DownloadRecord)
    (r : DownloadRecord)
    (hfind : findDownload s.pending u d = some r)
    (hq1 : fails.q_existing = false) (hq2 : fails.commit_repeat = true) :
    track_download s u d ty fi now fails race =
      (.err "commit_repeat",
       { committed := s.committed, pending := s.committed,
         accesses := s.accesses + 2 }) := by
  simp only [track_download, hq1, hq2, Bool.false_eq_true, if_false, if_true,
    hfind, rollback]

lemma track_err_qds_repeat (s : Session) (u d : Nat) (ty : String)
    (fi : Option Nat) (now : Nat) (fails : FailSpec) (race : Option DownloadRecord)
    (r : DownloadRecord)
    (hfind : findDownload s.pending u d = some r)
    (hq1 : fails.q_existing = false) (hq2 : fails.commit_repeat = false)
    (hq3 : fails.q_dataset_repeat = true) :
    track_download s u d ty fi now fails race =
      (.err "q_dataset_repeat",
       { committed := updateDownload s.pending u d (repeatUpdate ty now r),
         pending := updateDownload s.pending u d (repeatUpdate ty now r),
         accesses := s.accesses + 3 }) := by
  simp only [track_download, hq1, hq2, hq3, Bool.false_eq_true, if_false, if_true,
    hfind, rollback, repeatUpdate, Prod.mk.injEq, Session.mk.injEq, true_and,
    and_true]
  exact ⟨rfl, rfl⟩

lemma track_err_qds_first (s : Session) (u d : Nat) (ty : String)
    (fi : Option Nat) (now : Nat) (fails : FailSpec) (race : Option DownloadRecord)
    (hfind : findDownload s.pending u d = none)
    (hq1 : fails.q_existing = false) (hq4 : fails.q_dataset_first = true) :
    track_download s u d ty fi now fails race =
      (.err "q_dataset_first",
       { committed := s.committed, pending := s.committed,
         accesses := s.accesses + 2 }) := by
  simp only [track_download, hq1, hq4, Bool.false_eq_true, if_false, if_true,
    hfind, rollback]

lemma track_err_commit_first (s : Session) (u d : Nat) (ty : String)
    (fi : Option Nat) (now : Nat) (fails : FailSpec)
    (hfind : findDownload s.pending u d = none)
    (hq1 : fails.q_existing = false) (hq4 : fails.q_dataset_first = false)
    (hq5 : fails.commit_first = true) :
    track_download s u d ty fi now fails none =
      (.err "commit_first",
       { committed := s.committed, pending := s.committed,
         accesses := s.accesses + 3 }) := by
  simp only [track_download, hq1, hq4, hq5, Bool.false_eq_true, if_false, if_true,
    hfind, rollback]

/-- Claim C6: when a storage operation other than the speculative insert's
unique-constraint violation fails, the failure propagates to the caller
(the result is an error), the active transaction is rolled back in full
(no staged write survives: the final session has `pending = committed`),
and no partial write is ever visible: the ledger/counter correspondence
invariant still holds in the durable state, and unless the failure hit the
post-commit dataset read of the repeat path (where the complete repeat
update had already committed) the durable state is exactly the initial
one. -/
theorem claim_C6_persistence_failure (s : Session) (u d : Nat) (ty : String)
    (fi : Option Nat) (now : Nat) (fails : FailSpec) (out : TrackResult × Session)
    (hpc : s.pending = s.committed)
    (hinv : counterInvariant s.committed)
    (hdis : distinctDatasetIds s.committed)
    (hout : out = track_download s u d ty fi now fails none) :
    out.2.pending = out.2.committed ∧
    counterInvariant out.2.committed ∧
    (fails.q_existing = true → out.1.isErr = true) ∧
    ((findDownload s.pending u d).isSome = true → fails.q_existing = false →
       (fails.commit_repeat = true ∨ fails.q_dataset_repeat = true) →
       out.1.isErr = true) ∧
    ((findDownload s.pending u d).isSome = false → fails.q_existing = false →
       (fails.q_dataset_first = true ∨ fails.commit_first = true) →
       out.1.isErr = true) ∧
    (out.1.isErr = true → fails.q_dataset_repeat = false →
       out.2.committed = s.committed) := by
  have hinvP : counterInvariant s.pending := by rw [hpc]; exact hinv
  have hdisP : distinctDatasetIds s.pending := by rw [hpc]; exact hdis
  subst hout
  rcases hq1 : fails.q_existing with _ | _
  · rcases hfind : findDownload s.pending u d with _ | r
    · rcases hq4 : fails.q_dataset_first with _ | _
      · rcases hq5 : fails.commit_first with _ | _
        · rcases hds : findDataset s.pending d with _ | ds0
          · rcases hq6 : fails.q_retry with _ | _
            · rw [track_first_nods_eq s u d ty fi now fails hfind hpc hds hq1 hq4
                hq5 hq6]
              exact ⟨rfl, hinv, fun _ => rfl, fun _ _ _ => rfl, fun _ _ _ => rfl,
                fun _ _ => rfl⟩
            · rw [track_err_retry_nods s u d ty fi now fails hfind hpc hds hq1 hq4
                hq5 hq6]
              exact ⟨rfl, hinv, fun _ => rfl, fun _ _ _ => rfl, fun _ _ _ => rfl,
                fun _ _ => rfl⟩
          · rw [track_first_some_eq s u d ty fi now fails ds0 hfind hpc hds hq1 hq4 hq5]
            refine ⟨rfl, ?_, ?_, ?_, ?_, ?_⟩
            · exact counterInvariant_insert_bump s.pending d
                (firstRecord u d ty fi now) ds0 hinvP hdisP rfl hds
            · intro h; exact Bool.noConfusion h
            · intro h1 _ _; exact Bool.noConfusion h1
            · intro _ _ h3
              rcases h3 with h3 | h3 <;> exact Bool.noConfusion h3
            · intro h _; exact Bool.noConfusion h
        · rw [track_err_commit_first s u d ty fi now fails hfind hq1 hq4 hq5]
          exact ⟨rfl, hinv, fun _ => rfl, fun _ _ _ => rfl, fun _ _ _ => rfl,
            fun _ _ => rfl⟩
      · rw [track_err_qds_first s u d ty fi now fails none hfind hq1 hq4]
        exact ⟨rfl, hinv, fun _ => rfl, fun _ _ _ => rfl, fun _ _ _ => rfl,
          fun _ _ => rfl⟩
    · rcases hq2 : fails.commit_repeat with _ | _
      · rcases hq3 : fails.q_dataset_repeat with _ | _
        · rw [track_repeat_eq s u d ty fi now fails none r hfind hq1 hq2 hq3]
          refine ⟨rfl, ?_, ?_, ?_, ?_, ?_⟩
          · exact counterInvariant_updateRows s.pending _ _ (fun x => rfl) hinvP
          · intro h; exact Bool.noConfusion h
          · intro _ _ h3
            rcases h3 with h3 | h3 <;> exact Bool.noConfusion h3
          · intro h1 _ _; exact Bool.noConfusion h1
          · intro h _; exact Bool.noConfusion h
        · rw [track_err_qds_repeat s u d ty fi now fails none r hfind hq1 hq2 hq3]
          refine ⟨rfl, ?_, fun _ => rfl, fun _ _ _ => rfl, fun _ _ _ => rfl, ?_⟩
          · exact counterInvariant_updateRows s.pending _ _ (fun x => rfl) hinvP
          · intro _ h; exact Bool.noConfusion h
      · rw [track_err_commit_repeat s u d ty fi now fails none r hfind hq1 hq2]
        exact ⟨rfl, hinv, fun _ => rfl, fun _ _ _ => rfl, fun _ _ _ => rfl,
          fun _ _ => rfl⟩
  · rw [track_err_lookup s u d ty fi now fails none hq1]
    exact ⟨rfl, hinv, fun _ => rfl, fun _ _ _ => rfl, fun _ _ _ => rfl,
      fun _ _ => rfl⟩

/-- Witness for C6 at a concrete input: the first-path commit fails. -/
theorem claim_C6_persistence_failure_witness :
    (track_download exSession3 9 42 "file" none 7
        { noFails with commit_first := true } none).1.isErr = true ∧
    (track_download exSession3 9 42 "file" none 7
        { noFails with commit_first := true } none).2.committed = exSession3.committed := by
  have h := claim_C6_persistence_failure exSession3 9 42 "file" none 7
    { noFails with commit_first := true }
    (track_download exSession3 9 42 "file" none 7
      { noFails with commit_first := true } none)
    rfl (by unfold counterInvariant rowsFor; decide)
    (by unfold distinctDatasetIds; decide) rfl
  have herr : (track_download exSession3 9 42 "file" none 7
      { noFails with commit_first := true } none).1.isErr = true :=
    h.2.2.2.2.1 (by decide) rfl (Or.inr rfl)
  exact ⟨herr, h.2.2.2.2.2 herr rfl⟩
